import Mathlib

/-!
Verification of the command/response transport core of a TCL-over-TCP
debug client (PyOpenocdClient).

The development shallowly embeds the Python sources:
  * `src/py_openocd_client/baseclient.py` — socket transport: `raw_cmd`,
    `_do_recv_response`, `set_default_timeout`, the constructor checks;
  * `src/py_openocd_client/client.py` — the command envelope: `cmd`;
  * `src/py_openocd_client/errors.py` — the error classes;
  * `src/py_openocd_client/types.py` — the result records.

Modelling conventions:
  * Byte strings are `List Nat` (each entry a byte value).
  * Python floats (timeouts, clock readings) are embedded as `ℚ`; the
    arithmetic the code performs on them (`+`, `<`, `<=`) is exact on the
    values exercised here.
  * The socket is modelled by its observable effect: a list of receive
    events, each paired with the `time.time()` reading taken at the loop
    head of that iteration (exactly how the unit tests drive the code,
    mocking `socket.recv` and `time.time`).  Sending is modelled as
    always succeeding; `recv_data.decode("utf-8")` is abstracted by
    returning the undecoded payload bytes.
  * Raised Python exceptions become constructors of `OcdExc`; a function
    that can raise returns the exception as a value.
-/

/-- Result record of one finished TCL command (types.py, `OcdCommandResult`). -/
structure OcdCommandResult where
  retcode : Int
  cmd : String
  raw_cmd : String
  out : String
deriving DecidableEq, Repr

/-- The exceptions the embedded code can raise.

`valueError` and `assertionError` model the Python builtins; the rest model
the classes of errors.py.  `commandTimeout` is special: it models the
message-only timeout object that baseclient.py actually constructs
(`OcdCommandTimeout(msg)`), a name errors.py does not define — errors.py
instead defines `OcdCommandTimeoutError(msg, raw_cmd, timeout)`, modelled
here as `commandTimeoutError`.  See the C1 theorem. -/
inductive OcdExc where
  | valueError (msg : String)
  | assertionError (msg : String)
  | connectionError (msg : String)
  | commandTimeout (msg : String)
  | commandTimeoutError (msg : String) (raw_cmd : String) (timeout : ℚ)
  | commandFailed (result : OcdCommandResult)
  | invalidResponse (msg : String) (raw_cmd : String) (out : String)
deriving DecidableEq, Repr

/-! ### Constants of `_PyOpenocdBaseClient` (baseclient.py) -/

/-- baseclient.py `COMMAND_DELIMITER = b"\x1a"` (as a byte value). -/
def COMMAND_DELIMITER : Nat := 0x1a

/-- baseclient.py `MAX_RESPONSE_SIZE = 8 * 1024 * 1024`. -/
def MAX_RESPONSE_SIZE : Nat := 8 * 1024 * 1024

/-- baseclient.py `DEFAULT_RECV_TIMEOUT = 5.0`. -/
def DEFAULT_RECV_TIMEOUT : ℚ := 5

/-- Mutable state of `_PyOpenocdBaseClient`: the `_socket` handle is
modelled by the `connected` flag (`is_connected` is `_socket is not None`). -/
structure BaseClientState where
  host : String
  port : Int
  connected : Bool
  default_recv_timeout : ℚ
deriving DecidableEq, Repr

/-- baseclient.py `__init__`: validates the port, starts disconnected with
the default receive timeout. -/
def initBaseClient (host : String) (port : Int) : Except OcdExc BaseClientState :=
  if ¬ (1 ≤ port ∧ port ≤ 65535) then
    .error (.valueError "Incorrect TCP port. Expecting number in range 1 - 65535.")
  else
    .ok { host := host, port := port, connected := false,
          default_recv_timeout := DEFAULT_RECV_TIMEOUT }

/-- baseclient.py `set_default_timeout`. -/
def set_default_timeout (st : BaseClientState) (timeout : ℚ) :
    Except OcdExc Unit × BaseClientState :=
  if timeout ≤ 0 then
    (.error (.valueError "Timeout must be greater than zero"), st)
  else
    (.ok (), { st with default_recv_timeout := timeout })

/-- Python `bytes.find`: index of the first occurrence of byte `b`,
`-1` when absent. -/
def bytesFind (b : Nat) : List Nat → Int
  | [] => -1
  | x :: xs =>
    if x = b then 0
    else
      let r := bytesFind b xs
      if r = -1 then -1 else r + 1

/-- One observable outcome of a `socket.recv` call inside the receive
loop: either a `socket.timeout` (poll slice elapsed) or delivered bytes
(empty = peer closed the connection). -/
inductive RecvEvent where
  | timeout
  | data (d : List Nat)
deriving DecidableEq, Repr

/-- Outcome of `_do_recv_response` / `raw_cmd`.  `outOfEvents` is a model
artifact: the supplied event list ended before the loop reached a verdict
(in reality `recv` would block); theorems only cover runs that reach a
verdict. -/
inductive RecvOutcome where
  | ok (payload : List Nat)
  | err (e : OcdExc)
  | outOfEvents
deriving DecidableEq, Repr

/-- Message of the oversized-response error (baseclient.py, the f-string
rendered at `MAX_RESPONSE_SIZE = 8388608`). -/
def tooBigMsg : String :=
  "Received too big response (exceeding 8388608 bytes)"

/-- Message of the framing-violation error (baseclient.py). -/
def trailingBytesMsg : String :=
  "Received extra unexpected byte(s) after the command response delimiter!"

/-- Message of the timeout error (baseclient.py; Python float rendering of
the timeout is abstracted by `toString`). -/
def timeoutErrMsg (currTimeout : ℚ) : String :=
  "Did not receive the complete command response within " ++
    toString currTimeout ++ " seconds."

/-- baseclient.py `_do_recv_response`, as a function of the receive events.

Each event is paired with the `time.time()` reading of the loop-head check
of its iteration (`while time.time() < time_start + curr_timeout`).
Faithfully in source order: a `socket.timeout` continues the loop; an
empty read raises the connection-closed error; after appending a chunk the
size cap is checked first, then the delimiter, whose first occurrence must
be the last byte; on success the delimiter is stripped (decoding to `str`
is abstracted, see the module docstring). -/
def _do_recv_response (time_start currTimeout : ℚ)
    (evts : List (ℚ × RecvEvent)) (recv_data : List Nat) : RecvOutcome :=
  match evts with
  | [] => .outOfEvents
  | (now, e) :: rest =>
    if now < time_start + currTimeout then
      match e with
      | .timeout => _do_recv_response time_start currTimeout rest recv_data
      | .data d =>
        if d = [] then
          .err (.connectionError "Connection closed by OpenOCD")
        else
          let recv_data' := recv_data ++ d
          if recv_data'.length > MAX_RESPONSE_SIZE then
            .err (.connectionError tooBigMsg)
          else if COMMAND_DELIMITER ∈ recv_data' then
            if bytesFind COMMAND_DELIMITER recv_data' ≠ (recv_data'.length : Int) - 1 then
              .err (.connectionError trailingBytesMsg)
            else
              .ok recv_data'.dropLast
          else
            _do_recv_response time_start currTimeout rest recv_data'
    else
      .err (.commandTimeout (timeoutErrMsg currTimeout))

/-- baseclient.py `raw_cmd`.

Arguments beyond the source signature model the environment: whether
`select.select` reports premature buffered bytes, the `time.time()` value
taken at the start of `_do_recv_response`, and the receive events.  The
`except (OcdCommandTimeout, OcdConnectionError)` clause forces the socket
closed before re-raising; the two `ValueError`/not-connected checks happen
before the `try` block and leave the state untouched. -/
def raw_cmd (st : BaseClientState) (cmd : String) (timeout : Option ℚ)
    (prematureBytes : Bool) (time_start : ℚ) (evts : List (ℚ × RecvEvent)) :
    RecvOutcome × BaseClientState :=
  let _ := cmd  -- the command text is sent on the wire; sending is modelled as succeeding
  if (match timeout with | some t => decide (t ≤ 0) | none => false) then
    (.err (.valueError
        "Timeout must be positive float number (or None to use the default timeout)"),
      st)
  else if ¬ st.connected then
    (.err (.connectionError "Not connected"), st)
  else if prematureBytes then
    -- `_check_no_premature_recvd_bytes` raises inside the try block:
    -- caught, socket closed, re-raised.
    (.err (.connectionError
        "Received unexpected bytes from OpenOCD before the command was even sent."),
      { st with connected := false })
  else
    let currTimeout := timeout.getD st.default_recv_timeout
    match _do_recv_response time_start currTimeout evts [] with
    | .ok payload => (.ok payload, st)
    | .err e => (.err e, { st with connected := false })
    | .outOfEvents => (.outOfEvents, st)

/-! ### Command envelope (client.py `PyOpenocdClient.cmd`)

The envelope layer works on decoded strings; it is embedded from the point
where `raw_cmd` has returned the reply string (exactly how the unit tests
drive it, mocking `raw_cmd`). -/

/-- client.py `cmd`, the wrapping part: the full wire command built from
the user command and the `capture` flag. -/
def buildFullCmd (c : String) (capture : Bool) : String :=
  let r := if capture then "capture \x7b " ++ c ++ " \x7d" else c
  "set CMD_RETCODE [ catch \x7b " ++ r ++ " \x7d CMD_OUTPUT ] ; " ++
    "return \"$CMD_RETCODE $CMD_OUTPUT\" ; "

/-- Helper for the embedded regex check: after the optional minus sign,
one or more digits must follow, then end-of-string or a space.  The
regex `\d+($| )` is embedded by its greedy reading (take the maximal
digit run, then require end or a space), which is equivalent to the
backtracking semantics because a digit is never a space. -/
def digitsThenEndOrSpace (cs : List Char) : Bool :=
  match cs with
  | [] => false
  | c :: rest =>
    if c.isDigit then
      match rest.dropWhile Char.isDigit with
      | [] => true
      | c2 :: _ => c2 = ' '
    else false

/-- Character-list core of the reply-shape check (consumes the optional
leading minus sign). -/
def reMatchEnvelopeL : List Char → Bool
  | [] => false
  | c :: rest =>
    if c = '-' then digitsThenEndOrSpace rest
    else digitsThenEndOrSpace (c :: rest)

/-- client.py `cmd`, the reply-shape check:
`re.match(r"^-?\d+($| )", raw_result) is not None`. -/
def reMatchEnvelope (s : String) : Bool :=
  reMatchEnvelopeL s.data

/-- Python `raw_result.split(" ", maxsplit=1)`: the characters before the
first space, and — when a space exists — the characters after it. -/
def pySplitOnce : List Char → List Char × Option (List Char)
  | [] => ([], none)
  | c :: rest =>
    if c = ' ' then ([], some rest)
    else
      let p := pySplitOnce rest
      (c :: p.1, p.2)

/-- Accumulator loop of base-10 digit parsing (the relevant fragment of
Python `int(s, 10)`). -/
def digitsToNat (acc : Nat) : List Char → Nat
  | [] => acc
  | c :: rest => digitsToNat (acc * 10 + (c.toNat - 48)) rest

/-- Python `int(s, 10)` on the inputs reachable here (an optional minus
sign followed by digits; the further laxness of `int` — surrounding
whitespace, a plus sign, underscores — is unreachable behind the regex
check and not modelled). -/
def pyIntBase10 (cs : List Char) : Option Int :=
  match cs with
  | [] => none
  | c :: rest =>
    if c = '-' then
      if rest ≠ [] ∧ rest.all Char.isDigit then some (-(digitsToNat 0 rest : Int))
      else none
    else
      if (c :: rest).all Char.isDigit then some ((digitsToNat 0 (c :: rest) : Int))
      else none

/-- errors.py `OcdCommandFailedError.__init__`: `assert result.retcode != 0`,
then the error object carrying the result is built (`none` models the
`AssertionError` of a violated assert; the message string the constructor
formats is derivable from the carried result and not modelled separately). -/
def mkOcdCommandFailedError (result : OcdCommandResult) : Option OcdExc :=
  if result.retcode ≠ 0 then some (.commandFailed result) else none

/-- Message of the envelope-shape error (client.py). -/
def invalidResponseMsg : String :=
  "Received unexpected response from OpenOCD. It looks like OpenOCD misbehaves. "

/-- client.py `cmd`, from the point where `raw_cmd` returned `rawResult`:
shape check, split on the first space, base-10 parse of the return code,
result construction, and the `throw` policy. -/
def cmd (c : String) (capture throw : Bool) (rawResult : String) :
    Except OcdExc OcdCommandResult :=
  let full := buildFullCmd c capture
  if reMatchEnvelope rawResult then
    let parts := pySplitOnce rawResult.data
    match pyIntBase10 parts.1 with
    | some retcode =>
      let out : String := match parts.2 with
        | some r => String.mk r
        | none => ""
      let result : OcdCommandResult :=
        { retcode := retcode, cmd := c, raw_cmd := full, out := out }
      if throw = true ∧ retcode ≠ 0 then
        match mkOcdCommandFailedError result with
        | some e => .error e
        | none => .error (.assertionError "result.retcode != 0")
      else
        .ok result
    | none => .error (.valueError "invalid literal for int() with base 10")
  else
    .error (.invalidResponse invalidResponseMsg full rawResult)

/-! ### Listing parsers

The repository's `bp_parser.py` and `wp_parser.py` are not present under
`src/` — only their unit tests and their caller (client.py) are.  The two
parsers below are therefore modelled from the specification (sections 4.3
and 4.4) and pinned to the concrete inputs/outputs asserted by the unit
tests `tests_unit/test_bp_parser.py` and
`tests_unit/py_openocd_client/test_wp_parser.py`. -/

/-- types.py `BpType`. -/
inductive BpType where
  | HW
  | SW
  | CONTEXT
  | HYBRID
deriving DecidableEq, Repr

/-- types.py `BpInfo`. -/
structure BpInfo where
  addr : Nat
  size : Nat
  bp_type : BpType
  orig_instr : Option Nat
deriving DecidableEq, Repr

/-- types.py `WpType`. -/
inductive WpType where
  | READ
  | WRITE
  | ACCESS
deriving DecidableEq, Repr

/-- types.py `WpInfo`. -/
structure WpInfo where
  addr : Nat
  size : Nat
  wp_type : WpType
  value : Nat
  mask : Nat
deriving DecidableEq, Repr

/-- Value of one hexadecimal digit character. -/
def hexDigitVal (c : Char) : Option Nat :=
  if '0' ≤ c ∧ c ≤ '9' then some (c.toNat - 48)
  else if 'a' ≤ c ∧ c ≤ 'f' then some (c.toNat - 97 + 10)
  else if 'A' ≤ c ∧ c ≤ 'F' then some (c.toNat - 65 + 10)
  else none

/-- Accumulator loop for a run of hexadecimal digits. -/
def hexDigitsAux (acc : Nat) : List Char → Option Nat
  | [] => some acc
  | c :: rest =>
    match hexDigitVal c with
    | some v => hexDigitsAux (16 * acc + v) rest
    | none => none

/-- Parse a `0x`-prefixed hexadecimal literal (at least one digit). -/
def parseHexLit (cs : List Char) : Option Nat :=
  match cs with
  | '0' :: 'x' :: rest => if rest = [] then none else hexDigitsAux 0 rest
  | _ => none

/-- Strip an expected literal prefix, returning the remainder. -/
def dropPfx : List Char → List Char → Option (List Char)
  | [], s => some s
  | _ :: _, [] => none
  | p :: ps, c :: cs => if c = p then dropPfx ps cs else none

/-- Split at the first occurrence of `stop`: the characters before it and
the remainder starting at it. -/
def takeUntil (stop : Char) (cs : List Char) : List Char × List Char :=
  (cs.takeWhile (· ≠ stop), cs.dropWhile (· ≠ stop))

/-- Modelled from the spec: the kind field mapping of the watchpoint
listing parser (`wp_parser.py`, absent from `src/`).  The spec's grammar
admits `r`, `w`, `a` and the legacy numeric `0`; the mapping of `0` is
pinned by the repository's own unit test `test_parse_wp_entry_2`, which
asserts that `r/w/a: 0` parses to the read kind (the spec sentence
mapping `0` to access contradicts that test — see claim C6). -/
def wpTypeOfField : List Char → Option WpType
  | ['r'] => some .READ
  | ['w'] => some .WRITE
  | ['a'] => some .ACCESS
  | ['0'] => some .READ
  | _ => none

/-- Split a line at every occurrence of the two-character separator
`", "` (leftmost-first, non-overlapping, like Python `str.split(", ")`). -/
def splitFields : List Char → List (List Char)
  | [] => [[]]
  | ',' :: ' ' :: rest => [] :: splitFields rest
  | c :: rest =>
    match splitFields rest with
    | f :: fs => (c :: f) :: fs
    | [] => [[c]]

/-- Modelled from the spec: `wp_parser.py`'s `_WpParser.parse_wp_entry`
(absent from `src/`).  Input shape per section 4.4:
`address: 0xHEX, len: 0xHEX, r/w/a: <r|w|a|0>, value: 0xHEX, mask: 0xHEX`;
anything else fails with a `ValueError` whose message contains
"Could not parse" (pinned by `test_parse_wp_entry_error`). -/
def parse_wp_entry (line : String) : Except OcdExc WpInfo :=
  let failure : Except OcdExc WpInfo :=
    .error (.valueError ("Could not parse the watchpoint entry: " ++ line))
  match splitFields line.data with
  | [f1, f2, f3, f4, f5] =>
    match dropPfx "address: ".data f1, dropPfx "len: ".data f2,
        dropPfx "r/w/a: ".data f3, dropPfx "value: ".data f4,
        dropPfx "mask: ".data f5 with
    | some a, some l, some k, some v, some m =>
      match parseHexLit a, parseHexLit l, wpTypeOfField k,
          parseHexLit v, parseHexLit m with
      | some addr, some len, some t, some val, some mask =>
        .ok { addr := addr, size := len, wp_type := t, value := val, mask := mask }
      | _, _, _, _, _ => failure
    | _, _, _, _, _ => failure
  | _ => failure

/-- The two failure conditions of the breakpoint listing parser:
Python `NotImplementedError` for recognized-but-unsupported kinds, and
the internal `_OcdParsingError` for unrecognized lines. -/
inductive BpParseExc where
  | notImplementedErr
  | parsingError (msg : String)
deriving DecidableEq, Repr

/-- Modelled from the spec: the current-format software branch of
`bp_parser.py` (absent from `src/`):
`Software breakpoint(IVA): addr=0xA, len=0xL, orig_instr=0xO`. -/
def parseBpSwCurrent (cs : List Char) : Option (Nat × Nat × Nat) := do
  let r1 ← dropPfx "Software breakpoint(".data cs
  let r2 ← dropPfx "): addr=".data (takeUntil ')' r1).2
  let (aStr, r3) := takeUntil ',' r2
  let addr ← parseHexLit aStr
  let r4 ← dropPfx ", len=".data r3
  let (lStr, r5) := takeUntil ',' r4
  let len ← parseHexLit lStr
  let r6 ← dropPfx ", orig_instr=".data r5
  let orig ← parseHexLit r6
  return (addr, len, orig)

/-- Modelled from the spec: the current-format hardware branch of
`bp_parser.py` (absent from `src/`):
`Hardware breakpoint(IVA): addr=0xA, len=0xL, num=N` (the index `N` is
ignored). -/
def parseBpHwCurrent (cs : List Char) : Option (Nat × Nat) := do
  let r1 ← dropPfx "Hardware breakpoint(".data cs
  let r2 ← dropPfx "): addr=".data (takeUntil ')' r1).2
  let (aStr, r3) := takeUntil ',' r2
  let addr ← parseHexLit aStr
  let r4 ← dropPfx ", len=".data r3
  let (lStr, r5) := takeUntil ',' r4
  let len ← parseHexLit lStr
  let r6 ← dropPfx ", num=".data r5
  if r6 ≠ [] ∧ r6.all Char.isDigit then return (addr, len) else none

/-- Modelled from the spec: the legacy-format hardware branch of
`bp_parser.py` (absent from `src/`): `Breakpoint(IVA): 0xA, 0xL, N`
(pinned by `test_parse_bp_entry_hw`). -/
def parseBpHwLegacy (cs : List Char) : Option (Nat × Nat) := do
  let r1 ← dropPfx "Breakpoint(".data cs
  let r2 ← dropPfx "): ".data (takeUntil ')' r1).2
  let (aStr, r3) := takeUntil ',' r2
  let addr ← parseHexLit aStr
  let r4 ← dropPfx ", ".data r3
  let (lStr, r5) := takeUntil ',' r4
  let len ← parseHexLit lStr
  let r6 ← dropPfx ", ".data r5
  if r6 ≠ [] ∧ r6.all Char.isDigit then return (addr, len) else none

/-- Modelled from the spec: the legacy-format software branch of
`bp_parser.py` (absent from `src/`): `IVA breakpoint: 0xA, 0xL, 0xO`
(pinned by `test_parse_bp_entry_sw`). -/
def parseBpSwLegacy (cs : List Char) : Option (Nat × Nat × Nat) := do
  let r1 ← dropPfx " breakpoint: ".data (takeUntil ' ' cs).2
  let (aStr, r2) := takeUntil ',' r1
  let addr ← parseHexLit aStr
  let r3 ← dropPfx ", ".data r2
  let (lStr, r4) := takeUntil ',' r3
  let len ← parseHexLit lStr
  let r5 ← dropPfx ", ".data r4
  let orig ← parseHexLit r5
  return (addr, len, orig)

/-- Modelled from the spec: `bp_parser.py`'s `_BpParser.parse_bp_entry`
(absent from `src/`), per section 4.3 and the unit tests: context and
hybrid lines are recognized but unsupported (`NotImplementedError`);
software lines produce `orig_instr`; hardware lines do not; anything
else is a parsing error whose message contains "Could not parse". -/
def parse_bp_entry (line : String) : Except BpParseExc BpInfo :=
  if (dropPfx "Context breakpoint".data line.data).isSome ∨
      (dropPfx "Hybrid breakpoint".data line.data).isSome then
    .error .notImplementedErr
  else match parseBpSwCurrent line.data with
  | some (a, l, o) => .ok { addr := a, size := l, bp_type := .SW, orig_instr := some o }
  | none => match parseBpHwCurrent line.data with
    | some (a, l) => .ok { addr := a, size := l, bp_type := .HW, orig_instr := none }
    | none => match parseBpHwLegacy line.data with
      | some (a, l) => .ok { addr := a, size := l, bp_type := .HW, orig_instr := none }
      | none => match parseBpSwLegacy line.data with
        | some (a, l, o) =>
          .ok { addr := a, size := l, bp_type := .SW, orig_instr := some o }
        | none =>
          .error (.parsingError ("Could not parse the breakpoint entry: " ++ line))

/-! ### Specification-side definitions for the envelope reply (claim C3)

The code checks the reply with the regex `^-?\d+($| )` and splits with
`split(" ", maxsplit=1)`.  The definitions below state the same contract
the way the specification words it — declaratively — and the C3 theorem
proves the code against them. -/

/-- The spec's reply pattern, declaratively: an optional minus sign, one
or more digits, then end-of-string or a single space (with anything
after that space). -/
def specEnvelopePattern (s : String) : Prop :=
  ∃ (neg : Bool) (ds rest : List Char),
    ds ≠ [] ∧ (∀ c ∈ ds, c.isDigit = true) ∧
    s.data = (if neg then ['-'] else []) ++ ds ++ rest ∧
    (rest = [] ∨ ∃ r, rest = ' ' :: r)

/-- Positional base-10 value of a digit run (spec side). -/
def specDigitsVal : List Char → Nat
  | [] => 0
  | c :: rest => (c.toNat - 48) * 10 ^ rest.length + specDigitsVal rest

/-- The part of the reply before the first space (the whole reply when
there is no space) — spec side of the split. -/
def specSplitLeft (s : String) : List Char :=
  s.data.takeWhile (· ≠ ' ')

/-- The textual output the spec prescribes: everything after the first
space, verbatim; the empty string when there is no space. -/
def specOut (s : String) : String :=
  String.mk ((s.data.dropWhile (· ≠ ' ')).drop 1)

/-- The return code the spec prescribes: the left part of the split read
as a base-10 integer, possibly negative. -/
def specRetcode (s : String) : Int :=
  match specSplitLeft s with
  | [] => 0
  | c :: rest =>
    if c = '-' then -(specDigitsVal rest : Int) else (specDigitsVal (c :: rest) : Int)

/-! ### Run predicates for the receive loop

Claims C2 and C5 quantify over whole receive exchanges ("if the buffer
ever ...", "accumulating ...").  The predicates below characterize the
event lists realizing such exchanges; each constructor mirrors one
iteration of `_do_recv_response` and carries exactly the conditions the
code tests on it. -/

/-- Runs of the receive loop, started with buffer `acc`, whose first
delimiter sighting has trailing bytes after the delimiter (the framing
violation of claim C2). -/
inductive LeadsToTrailing (time_start currTimeout : ℚ) :
    List Nat → List (ℚ × RecvEvent) → Prop where
  | hit (acc : List Nat) (now : ℚ) (d : List Nat) (rest : List (ℚ × RecvEvent))
      (hnow : now < time_start + currTimeout) (hd : d ≠ [])
      (hsize : (acc ++ d).length ≤ MAX_RESPONSE_SIZE)
      (hmem : COMMAND_DELIMITER ∈ acc ++ d)
      (hidx : bytesFind COMMAND_DELIMITER (acc ++ d) ≠ ((acc ++ d).length : Int) - 1) :
      LeadsToTrailing time_start currTimeout acc ((now, .data d) :: rest)
  | stepTimeout (acc : List Nat) (now : ℚ) (rest : List (ℚ × RecvEvent))
      (hnow : now < time_start + currTimeout)
      (h : LeadsToTrailing time_start currTimeout acc rest) :
      LeadsToTrailing time_start currTimeout acc ((now, .timeout) :: rest)
  | stepData (acc : List Nat) (now : ℚ) (d : List Nat) (rest : List (ℚ × RecvEvent))
      (hnow : now < time_start + currTimeout) (hd : d ≠ [])
      (hsize : (acc ++ d).length ≤ MAX_RESPONSE_SIZE)
      (hmem : COMMAND_DELIMITER ∉ acc ++ d)
      (h : LeadsToTrailing time_start currTimeout (acc ++ d) rest) :
      LeadsToTrailing time_start currTimeout acc ((now, .data d) :: rest)

/-- Runs of the receive loop, started with buffer `acc`, that end in a
well-formed complete response whose payload (delimiter stripped) is the
last argument (claim C5, success side). -/
inductive LeadsToOk (time_start currTimeout : ℚ) :
    List Nat → List (ℚ × RecvEvent) → List Nat → Prop where
  | hit (acc : List Nat) (now : ℚ) (d : List Nat) (rest : List (ℚ × RecvEvent))
      (hnow : now < time_start + currTimeout) (hd : d ≠ [])
      (hsize : (acc ++ d).length ≤ MAX_RESPONSE_SIZE)
      (hmem : COMMAND_DELIMITER ∈ acc ++ d)
      (hidx : bytesFind COMMAND_DELIMITER (acc ++ d) = ((acc ++ d).length : Int) - 1) :
      LeadsToOk time_start currTimeout acc ((now, .data d) :: rest) (acc ++ d).dropLast
  | stepTimeout (acc : List Nat) (now : ℚ) (rest : List (ℚ × RecvEvent))
      (payload : List Nat) (hnow : now < time_start + currTimeout)
      (h : LeadsToOk time_start currTimeout acc rest payload) :
      LeadsToOk time_start currTimeout acc ((now, .timeout) :: rest) payload
  | stepData (acc : List Nat) (now : ℚ) (d : List Nat) (rest : List (ℚ × RecvEvent))
      (payload : List Nat) (hnow : now < time_start + currTimeout) (hd : d ≠ [])
      (hsize : (acc ++ d).length ≤ MAX_RESPONSE_SIZE)
      (hmem : COMMAND_DELIMITER ∉ acc ++ d)
      (h : LeadsToOk time_start currTimeout (acc ++ d) rest payload) :
      LeadsToOk time_start currTimeout acc ((now, .data d) :: rest) payload

/-- Runs of the receive loop, started with buffer `acc`, on which some
chunk pushes the accumulated size beyond `MAX_RESPONSE_SIZE` (claim C5,
failure side). -/
inductive LeadsToTooBig (time_start currTimeout : ℚ) :
    List Nat → List (ℚ × RecvEvent) → Prop where
  | hit (acc : List Nat) (now : ℚ) (d : List Nat) (rest : List (ℚ × RecvEvent))
      (hnow : now < time_start + currTimeout) (hd : d ≠ [])
      (hsize : (acc ++ d).length > MAX_RESPONSE_SIZE) :
      LeadsToTooBig time_start currTimeout acc ((now, .data d) :: rest)
  | stepTimeout (acc : List Nat) (now : ℚ) (rest : List (ℚ × RecvEvent))
      (hnow : now < time_start + currTimeout)
      (h : LeadsToTooBig time_start currTimeout acc rest) :
      LeadsToTooBig time_start currTimeout acc ((now, .timeout) :: rest)
  | stepData (acc : List Nat) (now : ℚ) (d : List Nat) (rest : List (ℚ × RecvEvent))
      (hnow : now < time_start + currTimeout) (hd : d ≠ [])
      (hsize : (acc ++ d).length ≤ MAX_RESPONSE_SIZE)
      (hmem : COMMAND_DELIMITER ∉ acc ++ d)
      (h : LeadsToTooBig time_start currTimeout (acc ++ d) rest) :
      LeadsToTooBig time_start currTimeout acc ((now, .data d) :: rest)

/-! ## Theorems -/

/-! ### Claim C9 — port validation in the constructor -/

/-- C9: constructing a session with a port outside 1..65535 raises a
`ValueError` immediately — before any socket exists (the constructor
never connects); every port within 1..65535 is accepted, yielding a
disconnected session with the default receive timeout. -/
theorem c9_port_range_validation (host : String) (port : Int) :
    (¬ (1 ≤ port ∧ port ≤ 65535) →
      initBaseClient host port =
        .error (.valueError "Incorrect TCP port. Expecting number in range 1 - 65535.")) ∧
    ((1 ≤ port ∧ port ≤ 65535) →
      initBaseClient host port =
        .ok { host := host, port := port, connected := false,
              default_recv_timeout := DEFAULT_RECV_TIMEOUT }) := by
  constructor <;> intro h <;> simp [initBaseClient, h]

/-- Witness for C9: port 123456 is rejected; port 6666 is accepted into a
disconnected state. -/
theorem c9_port_range_validation_witness :
    initBaseClient "localhost" 123456 =
      .error (.valueError "Incorrect TCP port. Expecting number in range 1 - 65535.") ∧
    initBaseClient "localhost" 6666 =
      .ok { host := "localhost", port := 6666, connected := false,
            default_recv_timeout := DEFAULT_RECV_TIMEOUT } :=
  ⟨(c9_port_range_validation "localhost" 123456).1 (by decide),
   (c9_port_range_validation "localhost" 6666).2 (by decide)⟩

/-! ### Claim C8 — non-positive timeouts rejected before any I/O -/

/-- C8: for every timeout `t ≤ 0`, both `set_default_timeout t` and
`raw_cmd(cmd, timeout=t)` raise a `ValueError` and return the state
unchanged (same connection state, same stored default timeout); the
`raw_cmd` result is one fixed value for every environment, so no I/O is
performed. -/
theorem c8_nonpositive_timeout_rejected (st : BaseClientState) (t : ℚ)
    (h : t ≤ 0) :
    set_default_timeout st t =
      (.error (.valueError "Timeout must be greater than zero"), st) ∧
    ∀ (c : String) (premature : Bool) (time_start : ℚ)
      (evts : List (ℚ × RecvEvent)),
      raw_cmd st c (some t) premature time_start evts =
        (.err (.valueError
          "Timeout must be positive float number (or None to use the default timeout)"),
          st) := by
  refine ⟨by simp [set_default_timeout, h], ?_⟩
  intro c premature time_start evts
  simp [raw_cmd, h]

/-- Witness for C8 at `t = 0` on a concrete disconnected state. -/
theorem c8_nonpositive_timeout_rejected_witness :
    set_default_timeout ⟨"localhost", 6666, false, 5⟩ 0 =
      (.error (.valueError "Timeout must be greater than zero"),
        ⟨"localhost", 6666, false, 5⟩) ∧
    raw_cmd ⟨"localhost", 6666, false, 5⟩ "cmd1" (some 0) false 0 [] =
      (.err (.valueError
        "Timeout must be positive float number (or None to use the default timeout)"),
        ⟨"localhost", 6666, false, 5⟩) :=
  ⟨(c8_nonpositive_timeout_rejected ⟨"localhost", 6666, false, 5⟩ 0 (by norm_num)).1,
   (c8_nonpositive_timeout_rejected ⟨"localhost", 6666, false, 5⟩ 0 (by norm_num)).2
      "cmd1" false 0 []⟩

/-! ### Claim C10 — every CommandFailed error carries a nonzero retcode -/

/-- C10: the `OcdCommandFailedError` constructor asserts a nonzero return
code (building it from a zero-retcode result fails the assert), and the
only raise site — inside `cmd` — produces `commandFailed` errors whose
attached result always has `retcode ≠ 0`. -/
theorem c10_command_failed_nonzero_retcode :
    (∀ result : OcdCommandResult, result.retcode = 0 →
      mkOcdCommandFailedError result = none) ∧
    (∀ (c : String) (capture throw : Bool) (s : String) (r : OcdCommandResult),
      cmd c capture throw s = .error (.commandFailed r) → r.retcode ≠ 0) := by
  constructor
  · intro result h
    simp [mkOcdCommandFailedError, h]
  · intro c capture throw s r h
    unfold cmd at h
    by_cases hm : reMatchEnvelope s = true
    · simp only [hm, if_true] at h
      cases hp : pyIntBase10 (pySplitOnce s.data).1 with
      | none => simp [hp] at h
      | some k =>
        simp only [hp] at h
        by_cases hc : throw = true ∧ k ≠ 0
        · rw [if_pos hc] at h
          simp only [mkOcdCommandFailedError, if_pos hc.2] at h
          cases h
          exact hc.2
        · rw [if_neg hc] at h
          cases h
    · simp [hm] at h

/-- Witness for C10: the reply `"138 some text"` produces a CommandFailed
error whose result retcode 138 is nonzero; the constructor rejects a
zero-retcode result. -/
theorem c10_command_failed_nonzero_retcode_witness :
    mkOcdCommandFailedError { retcode := 0, cmd := "c", raw_cmd := "rc", out := "" } =
      none ∧
    ({ retcode := 138, cmd := "some_cmd", raw_cmd := buildFullCmd "some_cmd" false,
       out := "some text" } : OcdCommandResult).retcode ≠ 0 :=
  ⟨c10_command_failed_nonzero_retcode.1 _ rfl,
   c10_command_failed_nonzero_retcode.2 "some_cmd" false true "138 some text"
     { retcode := 138, cmd := "some_cmd", raw_cmd := buildFullCmd "some_cmd" false,
       out := "some text" }
     (by rfl)⟩

/-! ### Claim C7 — orig_instr present iff software breakpoint -/

/-- C7: every successfully parsed breakpoint-listing line yields a
`BpInfo` whose `orig_instr` is present exactly when the kind is software;
hardware parses carry none (context/hybrid never parse successfully). -/
theorem c7_bp_orig_instr_iff_software (line : String) (info : BpInfo)
    (h : parse_bp_entry line = .ok info) :
    info.orig_instr.isSome ↔ info.bp_type = BpType.SW := by
  unfold parse_bp_entry at h
  repeat' split at h
  all_goals first
    | exact Except.noConfusion h
    | (injection h with h1; subst h1; simp)

/-- Witness for C7: the software test line from `test_parse_bp_entry_sw`
parses and satisfies the invariant. -/
theorem c7_bp_orig_instr_iff_software_witness :
    (BpInfo.mk 0x1000 8 .SW (some 0xabcd1234)).orig_instr.isSome ↔
      (BpInfo.mk 0x1000 8 .SW (some 0xabcd1234)).bp_type = BpType.SW :=
  c7_bp_orig_instr_iff_software
    "Software breakpoint(IVA): addr=0x00001000, len=0x8, orig_instr=0xabcd1234"
    (BpInfo.mk 0x1000 8 .SW (some 0xabcd1234)) (by rfl)

/-! ### Claim C6 — watchpoint kind mapping (corrected) -/

/-- Counterexample to C6 as stated: the legacy `0` kind field does not map
to the access kind.  On the exact input of the repository's own unit test
`test_parse_wp_entry_2`, the parse yields the read kind, as that test
asserts, and read is not access. -/
theorem c6_wp_kind_counterexample :
    parse_wp_entry
        "address: 0x00001234, len: 0x00000008, r/w/a: 0, value: 0x0000abcd, mask: 0x0000ffff" =
      .ok { addr := 0x1234, size := 8, wp_type := .READ, value := 0xabcd, mask := 0xffff } ∧
    WpType.READ ≠ WpType.ACCESS :=
  ⟨by rfl, by simp⟩

/-- C6 amended: the watchpoint listing parser maps `r` to read, `w` to
write, `a` to access, and the legacy `0` to read (shown on full listing
lines, including the two lines of the unit tests). -/
theorem c6_wp_kind_mapping_amended :
    parse_wp_entry
        "address: 0x00002000, len: 0x00000004, r/w/a: r, value: 0x00000000, mask: 0x000000ff" =
      .ok { addr := 0x2000, size := 4, wp_type := .READ, value := 0, mask := 0xff } ∧
    parse_wp_entry
        "address: 0x00002000, len: 0x00000004, r/w/a: w, value: 0x00000000, mask: 0x000000ff" =
      .ok { addr := 0x2000, size := 4, wp_type := .WRITE, value := 0, mask := 0xff } ∧
    parse_wp_entry
        "address: 0x00002000, len: 0x00000004, r/w/a: a, value: 0x00000000, mask: 0xffffffffffffffff" =
      .ok { addr := 0x2000, size := 4, wp_type := .ACCESS, value := 0,
            mask := 0xffffffffffffffff } ∧
    parse_wp_entry
        "address: 0x00001234, len: 0x00000008, r/w/a: 0, value: 0x0000abcd, mask: 0x0000ffff" =
      .ok { addr := 0x1234, size := 8, wp_type := .READ, value := 0xabcd, mask := 0xffff } :=
  ⟨by rfl, by rfl, by rfl, by rfl⟩

/-! ### Claim C1 — the timeout error and its payload (code bug) -/

/-- C1 (divergence witness): a complete delimited response failing to
arrive within the effective timeout makes `raw_cmd` fail and forces
disconnection — but the error the code raises is the message-only
`OcdCommandTimeout(msg)` (a name errors.py does not even define), which
carries neither the original command text nor the timeout value as the
claim, errors.py's `OcdCommandTimeoutError` and the repository's own
`test_raw_cmd_timeout` (asserting `e.value.raw_cmd` and `e.value.timeout`)
require.  Run shown on the unit test's scenario: command `"my_command"`,
timeout 4.5, clock readings 10/11/15, chunks `"abc"` then more bytes too
late. -/
theorem c1_timeout_error_lacks_context :
    raw_cmd ⟨"localhost", 6666, true, 5⟩ "my_command" (some (4.5 : ℚ)) false 10
        [(10, .timeout), (11, .data [97, 98, 99]), (15, .data [100])] =
      (.err (.commandTimeout (timeoutErrMsg (4.5 : ℚ))),
        ⟨"localhost", 6666, false, 5⟩) ∧
    (∀ (m rc : String) (t : ℚ),
      OcdExc.commandTimeout (timeoutErrMsg (4.5 : ℚ)) ≠
        OcdExc.commandTimeoutError m rc t) := by
  refine ⟨?_, fun m rc t h => OcdExc.noConfusion h⟩
  have h1 : ¬ ((4.5 : ℚ) ≤ 0) := by norm_num
  have h2 : (10 : ℚ) < 10 + 4.5 := by norm_num
  have h3 : (11 : ℚ) < 10 + 4.5 := by norm_num
  have h4 : ¬ ((15 : ℚ) < 10 + 4.5) := by norm_num
  simp [raw_cmd, _do_recv_response, h1, h2, h3, h4, COMMAND_DELIMITER,
    MAX_RESPONSE_SIZE]

/-! ### Receive-loop run lemmas (shared by claims C2 and C5) -/

/-- A run realizing `LeadsToTrailing` makes `_do_recv_response` raise the
framing-violation connection error. -/
theorem recv_of_leadsToTrailing {ts ct : ℚ} {acc : List Nat}
    {evts : List (ℚ × RecvEvent)} (h : LeadsToTrailing ts ct acc evts) :
    _do_recv_response ts ct evts acc = .err (.connectionError trailingBytesMsg) := by
  induction h with
  | hit acc now d rest hnow hd hsize hmem hidx =>
    simp only [_do_recv_response]
    rw [if_pos hnow, if_neg hd, if_neg (Nat.not_lt.mpr hsize), if_pos hmem,
      if_pos hidx]
  | stepTimeout acc now rest hnow h ih =>
    simp only [_do_recv_response]
    rw [if_pos hnow]
    exact ih
  | stepData acc now d rest hnow hd hsize hmem h ih =>
    simp only [_do_recv_response]
    rw [if_pos hnow, if_neg hd, if_neg (Nat.not_lt.mpr hsize), if_neg hmem]
    exact ih

/-- A run realizing `LeadsToOk` makes `_do_recv_response` return the
delimiter-stripped payload. -/
theorem recv_of_leadsToOk {ts ct : ℚ} {acc payload : List Nat}
    {evts : List (ℚ × RecvEvent)} (h : LeadsToOk ts ct acc evts payload) :
    _do_recv_response ts ct evts acc = .ok payload := by
  induction h with
  | hit acc now d rest hnow hd hsize hmem hidx =>
    simp only [_do_recv_response]
    rw [if_pos hnow, if_neg hd, if_neg (Nat.not_lt.mpr hsize), if_pos hmem,
      if_neg (show ¬ bytesFind COMMAND_DELIMITER (acc ++ d) ≠
        ((acc ++ d).length : Int) - 1 from not_not_intro hidx)]
  | stepTimeout acc now rest payload hnow h ih =>
    simp only [_do_recv_response]
    rw [if_pos hnow]
    exact ih
  | stepData acc now d rest payload hnow hd hsize hmem h ih =>
    simp only [_do_recv_response]
    rw [if_pos hnow, if_neg hd, if_neg (Nat.not_lt.mpr hsize), if_neg hmem]
    exact ih

/-- A run realizing `LeadsToTooBig` makes `_do_recv_response` raise the
size-cap connection error. -/
theorem recv_of_leadsToTooBig {ts ct : ℚ} {acc : List Nat}
    {evts : List (ℚ × RecvEvent)} (h : LeadsToTooBig ts ct acc evts) :
    _do_recv_response ts ct evts acc = .err (.connectionError tooBigMsg) := by
  induction h with
  | hit acc now d rest hnow hd hsize =>
    simp only [_do_recv_response]
    rw [if_pos hnow, if_neg hd, if_pos hsize]
  | stepTimeout acc now rest hnow h ih =>
    simp only [_do_recv_response]
    rw [if_pos hnow]
    exact ih
  | stepData acc now d rest hnow hd hsize hmem h ih =>
    simp only [_do_recv_response]
    rw [if_pos hnow, if_neg hd, if_neg (Nat.not_lt.mpr hsize), if_neg hmem]
    exact ih

/-! ### Claim C2 — trailing bytes after the delimiter -/

/-- C2: whenever the accumulated response buffer first contains the frame
delimiter at a position other than its last byte (in particular for a
single payload `"abc" + DELIM + "extra"`), `raw_cmd` fails with the
connection error about extra unexpected bytes after the delimiter, and
the session is disconnected afterward. -/
theorem c2_trailing_bytes_disconnects (st : BaseClientState)
    (hconn : st.connected = true) (c : String) (timeout : Option ℚ)
    (hto : ∀ t, timeout = some t → 0 < t) (time_start : ℚ)
    (evts : List (ℚ × RecvEvent))
    (h : LeadsToTrailing time_start (timeout.getD st.default_recv_timeout) [] evts) :
    raw_cmd st c timeout false time_start evts =
      (.err (.connectionError trailingBytesMsg), { st with connected := false }) := by
  have hrecv := recv_of_leadsToTrailing h
  cases timeout with
  | none =>
    simp only [Option.getD_none] at hrecv
    simp [raw_cmd, hconn, hrecv]
  | some t =>
    simp only [Option.getD_some] at hrecv
    simp [raw_cmd, hconn, hrecv, not_le.mpr (hto t rfl)]

/-- Witness for C2: the framing-desync scenario — the peer sends
`"abc" + DELIM + "extra"` (bytes 97 98 99, 26, 101 120 116 114 97) as the
entire receive payload. -/
theorem c2_trailing_bytes_disconnects_witness :
    raw_cmd ⟨"localhost", 6666, true, 5⟩ "some_cmd" none false 0
        [(0, .data [97, 98, 99, 26, 101, 120, 116, 114, 97])] =
      (.err (.connectionError trailingBytesMsg),
        ⟨"localhost", 6666, false, 5⟩) := by
  apply c2_trailing_bytes_disconnects ⟨"localhost", 6666, true, 5⟩ rfl "some_cmd"
    none (fun t ht => by cases ht) 0
  exact LeadsToTrailing.hit [] 0 [97, 98, 99, 26, 101, 120, 116, 114, 97] []
    (by norm_num) (by decide) (by decide) (by decide) (by decide)

/-! ### Claim C5 — 8 MiB response-size boundary -/

/-- Python `bytes.find` of a byte placed right after a prefix that does
not contain it. -/
theorem bytesFind_append_cons (b : Nat) (l t : List Nat) (h : b ∉ l) :
    bytesFind b (l ++ b :: t) = (l.length : Int) := by
  induction l with
  | nil => simp [bytesFind]
  | cons x xs ih =>
    have hx : x ≠ b := fun e => h (e ▸ List.mem_cons_self x xs)
    have hxs : b ∉ xs := fun m => h (List.mem_cons_of_mem x m)
    have hge : (0 : Int) ≤ (xs.length : Int) := Int.natCast_nonneg _
    simp only [List.cons_append, bytesFind, if_neg hx, List.append_eq, ih hxs]
    rw [if_neg (by omega)]
    simp only [List.length_cons]
    push_cast
    ring

/-- C5: a well-formed response totalling exactly `MAX_RESPONSE_SIZE`
bytes (delimiter included) succeeds; any run on which the accumulated
buffer exceeds `MAX_RESPONSE_SIZE` fails with the size-cap connection
error and leaves the session disconnected. -/
theorem c5_max_response_size_boundary (st : BaseClientState)
    (hconn : st.connected = true) (c : String) (timeout : Option ℚ)
    (hto : ∀ t, timeout = some t → 0 < t) (time_start : ℚ) :
    (∀ (evts : List (ℚ × RecvEvent)) (payload : List Nat),
      LeadsToOk time_start (timeout.getD st.default_recv_timeout) [] evts payload →
      payload.length + 1 = MAX_RESPONSE_SIZE →
      raw_cmd st c timeout false time_start evts = (.ok payload, st)) ∧
    (∀ evts : List (ℚ × RecvEvent),
      LeadsToTooBig time_start (timeout.getD st.default_recv_timeout) [] evts →
      raw_cmd st c timeout false time_start evts =
        (.err (.connectionError tooBigMsg), { st with connected := false })) := by
  constructor
  · intro evts payload h hlen
    have hrecv := recv_of_leadsToOk h
    cases timeout with
    | none =>
      simp only [Option.getD_none] at hrecv
      simp [raw_cmd, hconn, hrecv]
    | some t =>
      simp only [Option.getD_some] at hrecv
      simp [raw_cmd, hconn, hrecv, not_le.mpr (hto t rfl)]
  · intro evts h
    have hrecv := recv_of_leadsToTooBig h
    cases timeout with
    | none =>
      simp only [Option.getD_none] at hrecv
      simp [raw_cmd, hconn, hrecv]
    | some t =>
      simp only [Option.getD_some] at hrecv
      simp [raw_cmd, hconn, hrecv, not_le.mpr (hto t rfl)]

/-- Witness for C5: a single chunk of 8 MiB − 1 payload bytes followed by
the delimiter succeeds with the payload; a single chunk of 8 MiB + 1
bytes fails with the size-cap error and disconnects. -/
theorem c5_max_response_size_boundary_witness :
    raw_cmd ⟨"localhost", 6666, true, 5⟩ "command" none false 0
        [(0, .data (List.replicate (MAX_RESPONSE_SIZE - 1) 97 ++ [COMMAND_DELIMITER]))] =
      (.ok (List.replicate (MAX_RESPONSE_SIZE - 1) 97),
        ⟨"localhost", 6666, true, 5⟩) ∧
    raw_cmd ⟨"localhost", 6666, true, 5⟩ "command" none false 0
        [(0, .data (List.replicate (MAX_RESPONSE_SIZE + 1) 97))] =
      (.err (.connectionError tooBigMsg), ⟨"localhost", 6666, false, 5⟩) := by
  have hnotmem : COMMAND_DELIMITER ∉ List.replicate (MAX_RESPONSE_SIZE - 1) 97 := by
    simp [List.mem_replicate, COMMAND_DELIMITER]
  constructor
  · apply (c5_max_response_size_boundary ⟨"localhost", 6666, true, 5⟩ rfl "command"
      none (fun t ht => by cases ht) 0).1
    · have hhit := LeadsToOk.hit ([] : List Nat) (0 : ℚ)
        (List.replicate (MAX_RESPONSE_SIZE - 1) 97 ++ [COMMAND_DELIMITER]) []
        (show (0 : ℚ) < 0 + 5 by norm_num)
        (by
          intro e
          have h := congrArg List.length e
          rw [List.length_append, List.length_replicate] at h
          norm_num at h)
        (by
          rw [List.nil_append, List.length_append, List.length_replicate,
            List.length_singleton]
          norm_num [MAX_RESPONSE_SIZE])
        (by
          rw [List.nil_append]
          exact List.mem_append_right _ (List.mem_singleton_self COMMAND_DELIMITER))
        (by
          rw [List.nil_append, bytesFind_append_cons _ _ _ hnotmem,
            List.length_append, List.length_replicate, List.length_singleton]
          norm_num [MAX_RESPONSE_SIZE])
      rw [List.nil_append, List.dropLast_concat] at hhit
      exact hhit
    · rw [List.length_replicate]
      norm_num [MAX_RESPONSE_SIZE]
  · apply (c5_max_response_size_boundary ⟨"localhost", 6666, true, 5⟩ rfl "command"
      none (fun t ht => by cases ht) 0).2
    refine LeadsToTooBig.hit [] 0 _ [] ?_ ?_ ?_
    · show (0 : ℚ) < 0 + 5
      norm_num
    · intro e
      have h := congrArg List.length e
      rw [List.length_replicate] at h
      norm_num [MAX_RESPONSE_SIZE] at h
    · rw [List.nil_append, List.length_replicate]
      norm_num [MAX_RESPONSE_SIZE]

/-! ### Claim C4 — the throw policy on nonzero return codes -/

/-- C4: on an envelope exchange whose parsed return code is nonzero,
`cmd` with `throw=True` raises CommandFailed carrying the full result,
while `throw=False` returns the same result; a return code of 0 returns
the result under either flag (never raising CommandFailed). -/
theorem c4_nonzero_retcode_throw_policy (c : String) (capture : Bool)
    (s : String) (r : OcdCommandResult)
    (h : cmd c capture false s = .ok r) :
    (r.retcode ≠ 0 → cmd c capture true s = .error (.commandFailed r)) ∧
    (r.retcode = 0 → cmd c capture true s = .ok r) := by
  unfold cmd at h ⊢
  by_cases hm : reMatchEnvelope s = true
  · simp only [hm, if_true] at h ⊢
    cases hp : pyIntBase10 (pySplitOnce s.data).1 with
    | none => simp [hp] at h
    | some k =>
      simp only [hp] at h ⊢
      rw [if_neg (by simp)] at h
      injection h with h1
      subst h1
      constructor
      · intro hk
        rw [if_pos (by exact ⟨by trivial, hk⟩)]
        simp [mkOcdCommandFailedError, hk]
      · intro hk
        rw [if_neg (fun hcon => hcon.2 hk)]
  · simp [hm] at h

/-- Witness for C4: the reply `"138 some text"` raises CommandFailed with
retcode 138 and out `"some text"` under `throw=True`, and returns the
same result under `throw=False`. -/
theorem c4_nonzero_retcode_throw_policy_witness :
    cmd "some_cmd" false true "138 some text" =
      .error (.commandFailed
        { retcode := 138, cmd := "some_cmd",
          raw_cmd := buildFullCmd "some_cmd" false, out := "some text" }) ∧
    cmd "some_cmd" false false "138 some text" =
      .ok { retcode := 138, cmd := "some_cmd",
            raw_cmd := buildFullCmd "some_cmd" false, out := "some text" } :=
  have hok : cmd "some_cmd" false false "138 some text" =
      .ok { retcode := 138, cmd := "some_cmd",
            raw_cmd := buildFullCmd "some_cmd" false, out := "some text" } := by rfl
  ⟨(c4_nonzero_retcode_throw_policy "some_cmd" false "138 some text" _ hok).1
      (by decide),
   hok⟩

/-! ### Claim C3 — envelope reply parsing (helper lemmas) -/

theorem takeWhile_all {p : Char → Bool} {l : List Char}
    (h : ∀ c ∈ l, p c = true) : l.takeWhile p = l := by
  induction l with
  | nil => rfl
  | cons x xs ih =>
    rw [List.takeWhile_cons_of_pos (h x (List.mem_cons_self x xs)),
      ih (fun c hc => h c (List.mem_cons_of_mem x hc))]

theorem dropWhile_all {p : Char → Bool} {l : List Char}
    (h : ∀ c ∈ l, p c = true) : l.dropWhile p = [] := by
  induction l with
  | nil => rfl
  | cons x xs ih =>
    rw [List.dropWhile_cons_of_pos (h x (List.mem_cons_self x xs))]
    exact ih (fun c hc => h c (List.mem_cons_of_mem x hc))

theorem dropWhile_append_all {p : Char → Bool} {l : List Char} (r : List Char)
    (h : ∀ c ∈ l, p c = true) : (l ++ r).dropWhile p = r.dropWhile p := by
  induction l with
  | nil => rfl
  | cons x xs ih =>
    rw [List.cons_append, List.dropWhile_cons_of_pos (h x (List.mem_cons_self x xs))]
    exact ih (fun c hc => h c (List.mem_cons_of_mem x hc))

theorem takeWhile_append_stop {p : Char → Bool} {l : List Char} {x : Char}
    (r : List Char) (h : ∀ c ∈ l, p c = true) (hx : p x = false) :
    (l ++ x :: r).takeWhile p = l := by
  induction l with
  | nil =>
    rw [List.nil_append, List.takeWhile_cons_of_neg (by simp [hx])]
  | cons y ys ih =>
    rw [List.cons_append, List.takeWhile_cons_of_pos (h y (List.mem_cons_self y ys)),
      ih (fun c hc => h c (List.mem_cons_of_mem y hc))]

theorem dropWhile_append_stop {p : Char → Bool} {l : List Char} {x : Char}
    (r : List Char) (h : ∀ c ∈ l, p c = true) (hx : p x = false) :
    (l ++ x :: r).dropWhile p = x :: r := by
  rw [dropWhile_append_all _ h, List.dropWhile_cons_of_neg (by simp [hx])]

theorem pySplitOnce_no_space {l : List Char} (h : ∀ c ∈ l, c ≠ ' ') :
    pySplitOnce l = (l, none) := by
  induction l with
  | nil => rfl
  | cons x xs ih =>
    simp only [pySplitOnce, if_neg (h x (List.mem_cons_self x xs)),
      ih (fun c hc => h c (List.mem_cons_of_mem x hc))]

theorem pySplitOnce_space {l r : List Char} (h : ∀ c ∈ l, c ≠ ' ') :
    pySplitOnce (l ++ ' ' :: r) = (l, some r) := by
  induction l with
  | nil => simp [pySplitOnce]
  | cons x xs ih =>
    simp only [List.cons_append, pySplitOnce, List.append_eq,
      if_neg (h x (List.mem_cons_self x xs)),
      ih (fun c hc => h c (List.mem_cons_of_mem x hc))]

theorem digitsToNat_nil (acc : Nat) : digitsToNat acc [] = acc := rfl

theorem digitsToNat_cons (acc : Nat) (c : Char) (rest : List Char) :
    digitsToNat acc (c :: rest) = digitsToNat (acc * 10 + (c.toNat - 48)) rest := rfl

/-- The accumulator loop of `int(s, 10)` computes the positional value. -/
theorem digitsToNat_eq (ds : List Char) : ∀ acc : Nat,
    digitsToNat acc ds = acc * 10 ^ ds.length + specDigitsVal ds := by
  induction ds with
  | nil =>
    intro acc
    rw [digitsToNat_nil]
    simp [specDigitsVal]
  | cons c rest ih =>
    intro acc
    rw [digitsToNat_cons, ih]
    show _ = acc * 10 ^ (rest.length + 1) +
      ((c.toNat - 48) * 10 ^ rest.length + specDigitsVal rest)
    rw [pow_succ]
    ring

/-- `int(s, 10)` on a nonempty run of digits. -/
theorem pyIntBase10_digits {ds : List Char} (h1 : ds ≠ [])
    (h2 : ∀ c ∈ ds, c.isDigit = true) :
    pyIntBase10 ds = some (specDigitsVal ds : Int) := by
  cases ds with
  | nil => exact absurd rfl h1
  | cons c rest =>
    have hc : c.isDigit = true := h2 c (List.mem_cons_self c rest)
    have hcm : c ≠ '-' := fun e => absurd (e ▸ hc) (by decide)
    have hall : (c :: rest).all Char.isDigit = true := List.all_eq_true.mpr h2
    simp only [pyIntBase10]
    rw [if_neg hcm, if_pos hall, digitsToNat_eq]
    simp

/-- `int(s, 10)` on a minus sign followed by a nonempty run of digits. -/
theorem pyIntBase10_neg_digits {ds : List Char} (h1 : ds ≠ [])
    (h2 : ∀ c ∈ ds, c.isDigit = true) :
    pyIntBase10 ('-' :: ds) = some (-(specDigitsVal ds : Int)) := by
  have hall : ds ≠ [] ∧ ds.all Char.isDigit = true := ⟨h1, List.all_eq_true.mpr h2⟩
  simp only [pyIntBase10]
  rw [if_pos trivial, if_pos hall, digitsToNat_eq]
  simp

/-- The greedy embedded check agrees with the declarative reading of
`\d+($| )`. -/
theorem digitsThenEndOrSpace_iff (cs : List Char) :
    digitsThenEndOrSpace cs = true ↔
      ∃ ds rest, ds ≠ [] ∧ (∀ c ∈ ds, c.isDigit = true) ∧ cs = ds ++ rest ∧
        (rest = [] ∨ ∃ r, rest = ' ' :: r) := by
  constructor
  · intro h
    cases cs with
    | nil => cases h
    | cons c rest =>
      by_cases hc : c.isDigit = true
      · refine ⟨c :: rest.takeWhile Char.isDigit, rest.dropWhile Char.isDigit,
          by simp, ?_, ?_, ?_⟩
        · intro x hx
          rcases List.mem_cons.mp hx with rfl | hx'
          · exact hc
          · exact List.mem_takeWhile_imp hx'
        · rw [List.cons_append, List.takeWhile_append_dropWhile]
        · simp only [digitsThenEndOrSpace, if_pos hc] at h
          cases hd : rest.dropWhile Char.isDigit with
          | nil => exact Or.inl rfl
          | cons c2 tl =>
            rw [hd] at h
            have hc2 : c2 = ' ' := of_decide_eq_true h
            exact Or.inr ⟨tl, by rw [hc2]⟩
      · simp [digitsThenEndOrSpace, hc] at h
  · rintro ⟨ds, rest, h1, h2, heq, h3⟩
    cases ds with
    | nil => exact absurd rfl h1
    | cons d ds' =>
      have hd : d.isDigit = true := h2 d (List.mem_cons_self d ds')
      rw [heq, List.cons_append]
      simp only [digitsThenEndOrSpace, if_pos hd]
      rw [dropWhile_append_all _ (fun c hc => h2 c (List.mem_cons_of_mem d hc))]
      rcases h3 with rfl | ⟨r, rfl⟩
      · rfl
      · rw [List.dropWhile_cons_of_neg (by decide)]
        rfl

/-- The code's reply-shape regex check agrees with the spec's declarative
pattern. -/
theorem reMatchEnvelope_iff (s : String) :
    reMatchEnvelope s = true ↔ specEnvelopePattern s := by
  constructor
  · intro h
    unfold reMatchEnvelope at h
    cases hs : s.data with
    | nil =>
      rw [hs] at h
      exact absurd h (by decide)
    | cons c rest =>
      rw [hs] at h
      simp only [reMatchEnvelopeL] at h
      by_cases hc : c = '-'
      · rw [if_pos hc] at h
        obtain ⟨ds, rest', hA, hB, hC, hD⟩ := (digitsThenEndOrSpace_iff rest).mp h
        exact ⟨true, ds, rest', hA, hB, by rw [hs, hc, hC]; rfl, hD⟩
      · rw [if_neg hc] at h
        obtain ⟨ds, rest', hA, hB, hC, hD⟩ :=
          (digitsThenEndOrSpace_iff (c :: rest)).mp h
        exact ⟨false, ds, rest', hA, hB, by rw [hs, hC]; rfl, hD⟩
  · rintro ⟨neg, ds, rest, h1, h2, hdata, h3⟩
    have hdts : digitsThenEndOrSpace (ds ++ rest) = true :=
      (digitsThenEndOrSpace_iff _).mpr ⟨ds, rest, h1, h2, rfl, h3⟩
    unfold reMatchEnvelope
    cases neg with
    | true =>
      have hdata' : s.data = '-' :: (ds ++ rest) := by rw [hdata]; rfl
      rw [hdata']
      simp [reMatchEnvelopeL, hdts]
    | false =>
      have hdata' : s.data = ds ++ rest := by rw [hdata]; rfl
      rw [hdata']
      cases ds with
      | nil => exact absurd rfl h1
      | cons d ds' =>
        have hd : d.isDigit = true := h2 d (List.mem_cons_self d ds')
        have hdm : d ≠ '-' := fun e => absurd (e ▸ hd) (by decide)
        rw [List.cons_append]
        simp only [reMatchEnvelopeL]
        rw [if_neg hdm, ← List.cons_append]
        exact hdts

/-- Neither the optional sign nor the digit run contains a space. -/
theorem sign_ds_no_space (neg : Bool) {ds : List Char}
    (h2 : ∀ c ∈ ds, c.isDigit = true) :
    ∀ x ∈ (if neg then ['-'] else ([] : List Char)) ++ ds, x ≠ ' ' := by
  intro x hx
  rcases List.mem_append.mp hx with hx | hx
  · cases neg with
    | true =>
      simp only [if_true, List.mem_singleton] at hx
      subst hx
      decide
    | false => simp at hx
  · intro e
    have hd := h2 x hx
    rw [e] at hd
    exact absurd hd (by decide)

/-- Under the declarative pattern, the code's first-space split returns
the sign-and-digits part, and everything after the space when one
exists. -/
theorem envelope_split (neg : Bool) (ds rest : List Char) (s : String)
    (h2 : ∀ c ∈ ds, c.isDigit = true)
    (hdata : s.data = (if neg then ['-'] else []) ++ ds ++ rest)
    (h3 : rest = [] ∨ ∃ r, rest = ' ' :: r) :
    pySplitOnce s.data = ((if neg then ['-'] else []) ++ ds, rest.tail?) := by
  have hnos := sign_ds_no_space neg h2
  rcases h3 with rfl | ⟨r, rfl⟩
  · rw [hdata, List.append_nil, pySplitOnce_no_space hnos]
    rfl
  · rw [hdata, pySplitOnce_space hnos]
    rfl

/-- The spec-side split left part under the declarative pattern. -/
theorem specSplitLeft_eq (neg : Bool) (ds rest : List Char) (s : String)
    (h2 : ∀ c ∈ ds, c.isDigit = true)
    (hdata : s.data = (if neg then ['-'] else []) ++ ds ++ rest)
    (h3 : rest = [] ∨ ∃ r, rest = ' ' :: r) :
    specSplitLeft s = (if neg then ['-'] else []) ++ ds := by
  have hnos : ∀ x ∈ (if neg then ['-'] else ([] : List Char)) ++ ds,
      (fun c => decide (c ≠ ' ')) x = true :=
    fun x hx => decide_eq_true (sign_ds_no_space neg h2 x hx)
  unfold specSplitLeft
  rcases h3 with rfl | ⟨r, rfl⟩
  · rw [hdata, List.append_nil]
    exact takeWhile_all hnos
  · rw [hdata]
    exact takeWhile_append_stop _ hnos (by rfl)

/-- The spec-side output under the declarative pattern. -/
theorem specOut_eq (neg : Bool) (ds rest : List Char) (s : String)
    (h2 : ∀ c ∈ ds, c.isDigit = true)
    (hdata : s.data = (if neg then ['-'] else []) ++ ds ++ rest)
    (h3 : rest = [] ∨ ∃ r, rest = ' ' :: r) :
    specOut s = String.mk rest.tail := by
  have hnos : ∀ x ∈ (if neg then ['-'] else ([] : List Char)) ++ ds,
      (fun c => decide (c ≠ ' ')) x = true :=
    fun x hx => decide_eq_true (sign_ds_no_space neg h2 x hx)
  unfold specOut
  rcases h3 with rfl | ⟨r, rfl⟩
  · rw [hdata, List.append_nil, dropWhile_all hnos]
    rfl
  · rw [hdata, dropWhile_append_stop _ hnos (by rfl)]
    rfl

/-- The spec-side return code under the declarative pattern. -/
theorem specRetcode_eq (neg : Bool) (ds rest : List Char) (s : String)
    (h1 : ds ≠ []) (h2 : ∀ c ∈ ds, c.isDigit = true)
    (hdata : s.data = (if neg then ['-'] else []) ++ ds ++ rest)
    (h3 : rest = [] ∨ ∃ r, rest = ' ' :: r) :
    specRetcode s =
      if neg then -(specDigitsVal ds : Int) else (specDigitsVal ds : Int) := by
  have hleft := specSplitLeft_eq neg ds rest s h2 hdata h3
  unfold specRetcode
  rw [hleft]
  cases neg with
  | true =>
    have h : (if (true : Bool) = true then ['-'] else ([] : List Char)) ++ ds =
        '-' :: ds := rfl
    rw [h]
    simp
  | false =>
    have h : (if (false : Bool) = true then ['-'] else ([] : List Char)) ++ ds =
        ds := rfl
    rw [h]
    cases ds with
    | nil => exact absurd rfl h1
    | cons d ds' =>
      have hd : d.isDigit = true := h2 d (List.mem_cons_self d ds')
      have hdm : d ≠ '-' := fun e => absurd (e ▸ hd) (by decide)
      show (if d = '-' then -(specDigitsVal ds' : Int)
        else (specDigitsVal (d :: ds') : Int)) = _
      rw [if_neg hdm]
      rfl

/-- `int(s, 10)` on an optional sign followed by digits. -/
theorem pyIntBase10_sign (neg : Bool) {ds : List Char} (h1 : ds ≠ [])
    (h2 : ∀ c ∈ ds, c.isDigit = true) :
    pyIntBase10 ((if neg then ['-'] else []) ++ ds) =
      some (if neg then -(specDigitsVal ds : Int) else (specDigitsVal ds : Int)) := by
  cases neg with
  | true =>
    have h : (if (true : Bool) = true then ['-'] else ([] : List Char)) ++ ds =
        '-' :: ds := rfl
    rw [h, pyIntBase10_neg_digits h1 h2]
    rfl
  | false =>
    have h : (if (false : Bool) = true then ['-'] else ([] : List Char)) ++ ds =
        ds := rfl
    rw [h, pyIntBase10_digits h1 h2]
    rfl

/-- C3: every reply matching the pattern "optional minus sign, one or
more digits, then end-of-string or a single space" is split by `cmd` on
the first space only, its left part parsed as a base-10 (possibly
negative) integer return code and its remainder returned verbatim as the
output (empty when absent); any reply not matching the pattern fails with
InvalidResponse. -/
theorem c3_envelope_reply_parsing (c : String) (capture : Bool) (s : String) :
    (specEnvelopePattern s →
      cmd c capture false s = .ok
        { retcode := specRetcode s, cmd := c, raw_cmd := buildFullCmd c capture,
          out := specOut s }) ∧
    (¬ specEnvelopePattern s →
      cmd c capture false s =
        .error (.invalidResponse invalidResponseMsg (buildFullCmd c capture) s)) := by
  constructor
  · intro hpat
    unfold specEnvelopePattern at hpat
    obtain ⟨neg, ds, rest, h1, h2, hdata, h3⟩ := hpat
    have hmatch : reMatchEnvelope s = true :=
      (reMatchEnvelope_iff s).mpr ⟨neg, ds, rest, h1, h2, hdata, h3⟩
    have hsplit := envelope_split neg ds rest s h2 hdata h3
    have hint := pyIntBase10_sign neg h1 h2
    have hret := specRetcode_eq neg ds rest s h1 h2 hdata h3
    have hout := specOut_eq neg ds rest s h2 hdata h3
    simp only [cmd, hmatch, if_true, hsplit, hint]
    rw [if_neg (by simp)]
    rw [hret, hout]
    rcases h3 with rfl | ⟨r, rfl⟩
    · rfl
    · rfl
  · intro hnot
    have hmatch : reMatchEnvelope s = false := by
      cases hb : reMatchEnvelope s with
      | false => rfl
      | true => exact absurd ((reMatchEnvelope_iff s).mp hb) hnot
    simp [cmd, hmatch]

/-- Witness for C3: the round-trip example — the reply
`"0 Open On-Chip Debugger X.Y.Z"` matches the pattern and yields
retcode 0 with the banner as verbatim output. -/
theorem c3_envelope_reply_parsing_witness :
    specEnvelopePattern "0 Open On-Chip Debugger X.Y.Z" ∧
    cmd "version" false false "0 Open On-Chip Debugger X.Y.Z" =
      .ok { retcode := 0, cmd := "version",
            raw_cmd := buildFullCmd "version" false,
            out := "Open On-Chip Debugger X.Y.Z" } := by
  have hpat : specEnvelopePattern "0 Open On-Chip Debugger X.Y.Z" :=
    ⟨false, ['0'], " Open On-Chip Debugger X.Y.Z".data, by decide, by decide,
      by decide, Or.inr ⟨"Open On-Chip Debugger X.Y.Z".data, by decide⟩⟩
  have h := (c3_envelope_reply_parsing "version" false
    "0 Open On-Chip Debugger X.Y.Z").1 hpat
  rw [show specRetcode "0 Open On-Chip Debugger X.Y.Z" = 0 from by decide,
    show specOut "0 Open On-Chip Debugger X.Y.Z" = "Open On-Chip Debugger X.Y.Z"
      from by decide] at h
  exact ⟨hpat, h⟩
